import Mathlib

/-!
Verification of the vrpn_Mutex distributed-mutual-exclusion protocol
(src/vrpn_Mutex.h).  The header declares the state enum
`{ OURS, REQUESTING, AVAILABLE, HELD_REMOTELY }`, the grant counter
`d_numPeersGrantingLock`, the identity fields `d_myIP`/`d_myPort`, the
peer registry, and the five message handlers; the handler bodies live in
vrpn_Mutex.C, which is not part of the source tree here, so the
operations are modelled from the specification's description of them and
are marked as such below.
-/

namespace Vrpn

/-- Identity of one mutex instance: the (address, port) pair, from the
fields `d_myIP` / `d_myPort` of src/vrpn_Mutex.h. -/
structure Identity where
  address : Nat
  port : Nat
deriving DecidableEq, Repr

/-- The total order on identities used as the tiebreak key: numeric
comparison of address first, then port. -/
def idLt (x y : Identity) : Prop :=
  x.address < y.address ∨ (x.address = y.address ∧ x.port < y.port)

instance (x y : Identity) : Decidable (idLt x y) :=
  inferInstanceAs (Decidable (_ ∨ _))

/-- One registry entry, from `struct peerData` of src/vrpn_Mutex.h:
identity of the peer plus its per-request grant flag. -/
structure PeerEndpoint where
  id : Identity
  grantedLock : Bool
deriving DecidableEq, Repr

/-- The local protocol state, from `enum state` of src/vrpn_Mutex.h
(OURS = heldLocally; the requesting variant carries the grant counter
`d_numPeersGrantingLock`, the heldRemotely variant carries the holder
identity `d_holderIP`/`d_holderPort`). -/
inductive MState where
  | available
  | requesting (grantsReceived : Nat)
  | heldLocally
  | heldRemotely (holder : Identity)
deriving DecidableEq, Repr

/-- A callback-trigger event: which of the three callback sequences
(granted / denied / released) a step fires. -/
inductive Event where
  | granted
  | denied
  | released
deriving DecidableEq, Repr

/-- A protocol message, from the four message types `d_request_type`,
`d_release_type`, `d_grantRequest_type`, `d_denyRequest_type` of
src/vrpn_Mutex.h; grant and deny echo the requester identity. -/
inductive Msg where
  | request
  | release
  | grant (requester : Identity)
  | deny (requester : Identity)
deriving DecidableEq, Repr

/-- The local mutex instance: own identity, peer registry, state. -/
structure Mutex where
  myId : Identity
  peers : List PeerEndpoint
  state : MState
deriving DecidableEq, Repr

/-- Accessor `vrpn_Mutex::numPeers` — the size of the peer registry. -/
def Mutex.numPeers (m : Mutex) : Nat := m.peers.length

/-- Accessor `vrpn_Mutex::isAvailable` — a pattern match on the single state. -/
def Mutex.isAvailable (m : Mutex) : Bool :=
  match m.state with
  | .available => true
  | _ => false

/-- Accessor `vrpn_Mutex::isHeldLocally` — a pattern match on the single state. -/
def Mutex.isHeldLocally (m : Mutex) : Bool :=
  match m.state with
  | .heldLocally => true
  | _ => false

/-- Accessor `vrpn_Mutex::isHeldRemotely` — a pattern match on the single state. -/
def Mutex.isHeldRemotely (m : Mutex) : Bool :=
  match m.state with
  | .heldRemotely _ => true
  | _ => false

/-- Result of one protocol step at one instance: the new instance, the
outbound messages (destination, payload), and the callback sequences
fired. -/
structure StepResult where
  mutex : Mutex
  outbound : List (Identity × Msg)
  events : List Event
deriving DecidableEq, Repr

/-- Modelled from the spec: `vrpn_Mutex::request()` (body in
vrpn_Mutex.C, absent from the source tree).  Precondition state
Available, else trigger the denied callbacks synchronously with no
message and no state change; with an empty registry the request is
trivially granted; otherwise reset every grant flag, move to
Requesting with zero grants, and send a request to every peer. -/
def Mutex.request (m : Mutex) : StepResult :=
  match m.state with
  | .available =>
    if m.peers.length = 0 then
      ⟨{ m with state := .heldLocally }, [], [.granted]⟩
    else
      ⟨{ m with state := .requesting 0,
                peers := m.peers.map (fun p => { p with grantedLock := false }) },
       m.peers.map (fun p => (p.id, Msg.request)), []⟩
  | _ => ⟨m, [], [.denied]⟩

/-- Modelled from the spec: `vrpn_Mutex::release()` (body in
vrpn_Mutex.C, absent from the source tree).  Only HeldLocally triggers
action: send release to every peer, move to Available, fire the
released callbacks; otherwise a complete no-op. -/
def Mutex.release (m : Mutex) : StepResult :=
  match m.state with
  | .heldLocally =>
    ⟨{ m with state := .available },
     m.peers.map (fun p => (p.id, Msg.release)), [.released]⟩
  | _ => ⟨m, [], []⟩

/-- Modelled from the spec: `vrpn_Mutex::handle_request` (body in
vrpn_Mutex.C, absent from the source tree).  Available: grant and defer
to the requester.  Requesting: tiebreak — grant iff the requester's
identity is lower than ours.  Held (either way): deny. -/
def Mutex.handleRequest (m : Mutex) (sender : Identity) : StepResult :=
  match m.state with
  | .available =>
    ⟨{ m with state := .heldRemotely sender }, [(sender, .grant sender)], []⟩
  | .requesting _ =>
    if idLt sender m.myId then
      ⟨{ m with state := .heldRemotely sender }, [(sender, .grant sender)], []⟩
    else
      ⟨m, [(sender, .deny sender)], []⟩
  | _ => ⟨m, [(sender, .deny sender)], []⟩

/-- Modelled from the spec: `vrpn_Mutex::handle_grantRequest` (body in
vrpn_Mutex.C, absent from the source tree).  The payload echoes the
requester being granted to; a grant not addressed to us is ignored.
While Requesting, record the grant, increment the counter, and on
reaching numPeers move to HeldLocally and fire the granted callbacks;
in any other state the message is ignored. -/
def Mutex.handleGrant (m : Mutex) (sender requester : Identity) : StepResult :=
  if requester = m.myId then
    match m.state with
    | .requesting g =>
      let peersMarked := m.peers.map
        (fun p => if p.id = sender then { p with grantedLock := true } else p)
      if g + 1 = m.peers.length then
        ⟨{ m with state := .heldLocally, peers := peersMarked }, [], [.granted]⟩
      else
        ⟨{ m with state := .requesting (g + 1), peers := peersMarked }, [], []⟩
    | _ => ⟨m, [], []⟩
  else ⟨m, [], []⟩

/-- Modelled from the spec: `vrpn_Mutex::handle_denyRequest` (body in
vrpn_Mutex.C, absent from the source tree).  A deny not addressed to us
is ignored; while Requesting it aborts the request (back to Available,
denied callbacks fire) regardless of the grant count; in any other
state it is ignored. -/
def Mutex.handleDeny (m : Mutex) (requester : Identity) : StepResult :=
  if requester = m.myId then
    match m.state with
    | .requesting _ => ⟨{ m with state := .available }, [], [.denied]⟩
    | _ => ⟨m, [], []⟩
  else ⟨m, [], []⟩

/-- Modelled from the spec: `vrpn_Mutex::handle_release` (body in
vrpn_Mutex.C, absent from the source tree).  HeldRemotely moves back to
Available and fires the released callbacks; any other state ignores the
message (the sender was not actually the holder). -/
def Mutex.handleRelease (m : Mutex) : StepResult :=
  match m.state with
  | .heldRemotely _ => ⟨{ m with state := .available }, [], [.released]⟩
  | _ => ⟨m, [], []⟩

/-- Dispatch one inbound message to its handler, as the mainloop does. -/
def Mutex.handleMsg (m : Mutex) (sender : Identity) : Msg → StepResult
  | .request => m.handleRequest sender
  | .release => m.handleRelease
  | .grant r => m.handleGrant sender r
  | .deny r => m.handleDeny r

/-- Route of an outbound batch: the messages addressed to identity `i`,
in send order (the transport delivers per-connection FIFO). -/
def msgsTo (i : Identity) : List (Identity × Msg) → List Msg
  | [] => []
  | (j, m) :: rest => if j = i then m :: msgsTo i rest else msgsTo i rest

/-- Two peers A and B registered with each other under one mutex name,
with the two reliable ordered channels between them (head = oldest
undelivered message). -/
structure TwoPeerSys where
  a : Mutex
  b : Mutex
  ab : List Msg
  ba : List Msg
deriving DecidableEq, Repr

/-- Swap the roles of the two peers. -/
def swapSys (s : TwoPeerSys) : TwoPeerSys := ⟨s.b, s.a, s.ba, s.ab⟩

/-- Peer A calls `request()`; its outbound batch is routed to B. -/
def stepRequestA (s : TwoPeerSys) : TwoPeerSys :=
  ⟨(s.a.request).mutex, s.b,
   s.ab ++ msgsTo s.b.myId (s.a.request).outbound, s.ba⟩

/-- Peer A calls `release()`; its outbound batch is routed to B. -/
def stepReleaseA (s : TwoPeerSys) : TwoPeerSys :=
  ⟨(s.a.release).mutex, s.b,
   s.ab ++ msgsTo s.b.myId (s.a.release).outbound, s.ba⟩

/-- B's mainloop delivers the oldest undelivered message from A. -/
def stepDeliverAB (s : TwoPeerSys) : TwoPeerSys :=
  match s.ab with
  | [] => s
  | msg :: rest =>
    ⟨s.a, (s.b.handleMsg s.a.myId msg).mutex, rest,
     s.ba ++ msgsTo s.a.myId (s.b.handleMsg s.a.myId msg).outbound⟩

/-- Peer B calls `request()` — the mirror image of `stepRequestA`. -/
def stepRequestB (s : TwoPeerSys) : TwoPeerSys :=
  swapSys (stepRequestA (swapSys s))

/-- Peer B calls `release()` — the mirror image of `stepReleaseA`. -/
def stepReleaseB (s : TwoPeerSys) : TwoPeerSys :=
  swapSys (stepReleaseA (swapSys s))

/-- A's mainloop delivers the oldest undelivered message from B. -/
def stepDeliverBA (s : TwoPeerSys) : TwoPeerSys :=
  swapSys (stepDeliverAB (swapSys s))

/-- One step of the two-peer protocol: either peer may invoke the
public API or deliver the next inbound message.  No message loss, no
reordering, no peer loss (the no-partition, no-peer-loss setting). -/
inductive SysStep : TwoPeerSys → TwoPeerSys → Prop where
  | requestA (s : TwoPeerSys) : SysStep s (stepRequestA s)
  | requestB (s : TwoPeerSys) : SysStep s (stepRequestB s)
  | releaseA (s : TwoPeerSys) : SysStep s (stepReleaseA s)
  | releaseB (s : TwoPeerSys) : SysStep s (stepReleaseB s)
  | deliverAB (s : TwoPeerSys) : SysStep s (stepDeliverAB s)
  | deliverBA (s : TwoPeerSys) : SysStep s (stepDeliverBA s)

/-- The initial two-peer system: both Available, each with exactly the
other in its registry, channels empty. -/
def initSys (idA idB : Identity) : TwoPeerSys :=
  ⟨⟨idA, [⟨idB, false⟩], .available⟩, ⟨idB, [⟨idA, false⟩], .available⟩, [], []⟩

/-- Reachability of the two-peer protocol from the initial system. -/
def Reachable (idA idB : Identity) (s : TwoPeerSys) : Prop :=
  Relation.ReflTransGen SysStep (initSys idA idB) s

/-- The per-direction inductive invariant, for the direction in which
`x` may come to hold the lock.  `xy` is the channel x sends on, `yx`
the channel x receives on.  A claim by x to the lock (x holds it, or a
grant addressed to x is in flight) forces y to be deferring and forbids
an in-flight release from x; a grant addressed to a holder is
impossible; at most one such grant and one release are in flight; and
an in-flight release from x forces y to be deferring still. -/
def DirInv (x y : Mutex) (xy yx : List Msg) : Prop :=
  ((x.state = .heldLocally ∨ 0 < yx.count (.grant x.myId)) →
      (y.isHeldRemotely = true ∧ xy.count .release = 0)) ∧
  (x.state = .heldLocally → yx.count (.grant x.myId) = 0) ∧
  yx.count (.grant x.myId) ≤ 1 ∧
  xy.count .release ≤ 1 ∧
  (0 < xy.count .release → y.isHeldRemotely = true)

/-- The inductive invariant of the two-peer system: registry shape of
both peers, the grant counter is zero whenever a peer is Requesting
(with a single registered peer a first grant immediately wins), and
both directions' `DirInv`. -/
def SysInv (s : TwoPeerSys) : Prop :=
  s.a.peers.map PeerEndpoint.id = [s.b.myId] ∧
  s.b.peers.map PeerEndpoint.id = [s.a.myId] ∧
  (∀ g, s.a.state = .requesting g → g = 0) ∧
  (∀ g, s.b.state = .requesting g → g = 0) ∧
  DirInv s.a s.b s.ab s.ba ∧
  DirInv s.b s.a s.ba s.ab

/-- Concrete low identity for test scenarios (spec §8 uses addr=10, port=1). -/
def idLo : Identity := ⟨10, 1⟩

/-- Concrete high identity for test scenarios (spec §8 uses addr=20, port=2). -/
def idHi : Identity := ⟨20, 2⟩

/-- The low-identity peer, mid-request, with the high peer registered. -/
def mutexReqLo : Mutex := ⟨idLo, [⟨idHi, false⟩], MState.requesting 0⟩

/-- The high-identity peer, mid-request, with the low peer registered. -/
def mutexReqHi : Mutex := ⟨idHi, [⟨idLo, false⟩], MState.requesting 0⟩

/-- An available mutex instance with an empty peer registry. -/
def mutexAvail0 : Mutex := ⟨idLo, [], MState.available⟩

/-- The simultaneous-collision scenario of spec §8: both peers
requesting, each one's request message in flight to the other. -/
def sysCollide : TwoPeerSys := ⟨mutexReqLo, mutexReqHi, [Msg.request], [Msg.request]⟩

theorem idLt_asymm {x y : Identity} (h : idLt x y) : ¬ idLt y x := by
  unfold idLt at *
  omega

theorem peers_of_map_id {l : List PeerEndpoint} {i : Identity}
    (h : l.map PeerEndpoint.id = [i]) : ∃ fl, l = [⟨i, fl⟩] := by
  match l with
  | [] => simp at h
  | [p] =>
    simp at h
    exact ⟨p.grantedLock, by cases p; simp_all⟩
  | p :: q :: r => simp at h

theorem sysInv_swap {s : TwoPeerSys} (h : SysInv s) : SysInv (swapSys s) := by
  obtain ⟨h1, h2, h3, h4, h5, h6⟩ := h
  exact ⟨h2, h1, h4, h3, h6, h5⟩

@[simp]
theorem count_release_singleton_grant (x : Identity) :
    List.count Msg.release [Msg.grant x] = 0 := by
  simp [List.count_singleton']

@[simp]
theorem count_release_singleton_deny (x : Identity) :
    List.count Msg.release [Msg.deny x] = 0 := by
  simp [List.count_singleton']

@[simp]
theorem count_release_singleton_request :
    List.count Msg.release [Msg.request] = 0 := by
  decide

@[simp]
theorem count_grant_singleton_release (x : Identity) :
    List.count (Msg.grant x) [Msg.release] = 0 := by
  simp [List.count_singleton']

@[simp]
theorem count_grant_singleton_request (x : Identity) :
    List.count (Msg.grant x) [Msg.request] = 0 := by
  simp [List.count_singleton']

@[simp]
theorem count_grant_singleton_deny (x y : Identity) :
    List.count (Msg.grant x) [Msg.deny y] = 0 := by
  simp [List.count_singleton']

theorem count_grant_singleton_grant (x y : Identity) :
    List.count (Msg.grant x) [Msg.grant y] = if y = x then 1 else 0 := by
  simp [List.count_singleton']

theorem sysInv_stepRequestA {s : TwoPeerSys} (h : SysInv s) :
    SysInv (stepRequestA s) := by
  obtain ⟨hra, hrb, hqa, hqb, ⟨a1, a2, a3, a4, a5⟩, ⟨b1, b2, b3, b4, b5⟩⟩ := h
  obtain ⟨fla, hpa⟩ := peers_of_map_id hra
  cases hs : s.a.state with
  | available =>
    have hbnotheld : ¬ s.b.state = MState.heldLocally := by
      intro hb
      have := (b1 (Or.inl hb)).1
      simp [Mutex.isHeldRemotely, hs] at this
    have hgb0 : s.ab.count (Msg.grant s.b.myId) = 0 := by
      by_contra hne
      have := (b1 (Or.inr (Nat.pos_of_ne_zero hne))).1
      simp [Mutex.isHeldRemotely, hs] at this
    have hrel0 : s.ba.count Msg.release = 0 := by
      by_contra hne
      have := b5 (Nat.pos_of_ne_zero hne)
      simp [Mutex.isHeldRemotely, hs] at this
    simp only [stepRequestA, Mutex.request, hs, hpa, List.length_cons,
      List.length_nil, List.map_cons, List.map_nil, msgsTo, if_pos rfl, if_true]
    simp only [Nat.zero_add, if_neg (by omega : ¬ (1 : Nat) = 0)]
    refine ⟨by simp, by simpa using hrb, by simp, hqb, ?_, ?_⟩
    · refine ⟨?_, by simp, by simpa using a3, ?_, ?_⟩
      · intro hc
        rcases hc with hc | hc
        · simp at hc
        · have := a1 (Or.inr (by simpa using hc))
          simp [List.count_append] at this ⊢
          exact this
      · simpa [List.count_append] using a4
      · intro hc
        have hc' : 0 < s.ab.count Msg.release := by
          have h0 : List.count Msg.release [Msg.request] = 0 := by decide
          simp only [List.count_append, h0] at hc
          omega
        exact a5 hc'
    · refine ⟨?_, ?_, ?_, by simpa using b4, ?_⟩
      · intro hc
        rcases hc with hc | hc
        · exact absurd hc hbnotheld
        · simp [List.count_append, hgb0] at hc
      · intro _
        simp [List.count_append, hgb0]
      · simp [List.count_append, hgb0]
      · intro hc
        have hc' : 0 < s.ba.count Msg.release := by simpa using hc
        exact absurd hc' (by omega)
  | requesting g =>
    simp only [stepRequestA, Mutex.request, hs, msgsTo, List.append_nil]
    exact ⟨hra, hrb, hqa, hqb, ⟨a1, a2, a3, a4, a5⟩, ⟨b1, b2, b3, b4, b5⟩⟩
  | heldLocally =>
    simp only [stepRequestA, Mutex.request, hs, msgsTo, List.append_nil]
    exact ⟨hra, hrb, hqa, hqb, ⟨a1, a2, a3, a4, a5⟩, ⟨b1, b2, b3, b4, b5⟩⟩
  | heldRemotely hld =>
    simp only [stepRequestA, Mutex.request, hs, msgsTo, List.append_nil]
    exact ⟨hra, hrb, hqa, hqb, ⟨a1, a2, a3, a4, a5⟩, ⟨b1, b2, b3, b4, b5⟩⟩

theorem sysInv_stepReleaseA {s : TwoPeerSys} (h : SysInv s) :
    SysInv (stepReleaseA s) := by
  obtain ⟨hra, hrb, hqa, hqb, ⟨a1, a2, a3, a4, a5⟩, ⟨b1, b2, b3, b4, b5⟩⟩ := h
  obtain ⟨fla, hpa⟩ := peers_of_map_id hra
  cases hs : s.a.state with
  | heldLocally =>
    have hbrem : s.b.isHeldRemotely = true := (a1 (Or.inl hs)).1
    have hab0 : s.ab.count Msg.release = 0 := (a1 (Or.inl hs)).2
    have hga0 : s.ba.count (Msg.grant s.a.myId) = 0 := a2 hs
    have hbnotheld : ¬ s.b.state = MState.heldLocally := by
      intro hb
      have := (b1 (Or.inl hb)).1
      simp [Mutex.isHeldRemotely, hs] at this
    have hgb0 : s.ab.count (Msg.grant s.b.myId) = 0 := by
      by_contra hne
      have := (b1 (Or.inr (Nat.pos_of_ne_zero hne))).1
      simp [Mutex.isHeldRemotely, hs] at this
    have hrelba : s.ba.count Msg.release = 0 := by
      by_contra hne
      have := b5 (Nat.pos_of_ne_zero hne)
      simp [Mutex.isHeldRemotely, hs] at this
    simp only [stepReleaseA, Mutex.release, hs, hpa, List.map_cons, List.map_nil,
      msgsTo, if_pos rfl, if_true]
    refine ⟨by simp [hpa], by simpa using hrb, by simp, hqb, ?_, ?_⟩
    · refine ⟨?_, by simp, by simpa using a3, ?_, ?_⟩
      · intro hc
        rcases hc with hc | hc
        · simp at hc
        · have : (0 : Nat) < 0 := by
            have := hga0
            simp only [List.count_append] at hc
            omega
          omega
      · simp [List.count_append, hab0]
      · intro _
        exact hbrem
    · refine ⟨?_, ?_, ?_, by simpa using b4, ?_⟩
      · intro hc
        rcases hc with hc | hc
        · exact absurd hc hbnotheld
        · have hc' : (0 : Nat) < 0 := by
            simp only [List.count_append, count_grant_singleton_release, hgb0] at hc
            omega
          omega
      · intro _
        simp [List.count_append, hgb0]
      · simp [List.count_append, hgb0]
      · intro hc
        have hc' : 0 < s.ba.count Msg.release := by simpa using hc
        exact absurd hc' (by omega)
  | available =>
    simp only [stepReleaseA, Mutex.release, hs, msgsTo, List.append_nil]
    exact ⟨hra, hrb, hqa, hqb, ⟨a1, a2, a3, a4, a5⟩, ⟨b1, b2, b3, b4, b5⟩⟩
  | requesting g =>
    simp only [stepReleaseA, Mutex.release, hs, msgsTo, List.append_nil]
    exact ⟨hra, hrb, hqa, hqb, ⟨a1, a2, a3, a4, a5⟩, ⟨b1, b2, b3, b4, b5⟩⟩
  | heldRemotely hld =>
    simp only [stepReleaseA, Mutex.release, hs, msgsTo, List.append_nil]
    exact ⟨hra, hrb, hqa, hqb, ⟨a1, a2, a3, a4, a5⟩, ⟨b1, b2, b3, b4, b5⟩⟩

theorem count_tail_le (msg x : Msg) (rest : List Msg) :
    rest.count x ≤ (msg :: rest).count x := by
  rw [List.count_cons]
  split <;> omega

theorem sysInv_tail {s : TwoPeerSys} {msg : Msg} {rest : List Msg}
    (hab : s.ab = msg :: rest) (h : SysInv s) :
    SysInv ⟨s.a, s.b, rest, s.ba⟩ := by
  obtain ⟨hra, hrb, hqa, hqb, ⟨a1, a2, a3, a4, a5⟩, ⟨b1, b2, b3, b4, b5⟩⟩ := h
  rw [hab] at a1 a4 a5 b1 b2 b3
  have hrel := count_tail_le msg Msg.release rest
  have hgb := count_tail_le msg (Msg.grant s.b.myId) rest
  simp only [SysInv, DirInv]
  refine ⟨hra, hrb, hqa, hqb, ⟨?_, a2, a3, ?_, ?_⟩, ⟨?_, ?_, ?_, b4, b5⟩⟩
  · intro hc
    have := a1 hc
    exact ⟨this.1, by omega⟩
  · omega
  · intro hc
    exact a5 (by omega)
  · intro hc
    rcases hc with hc | hc
    · exact b1 (Or.inl hc)
    · exact b1 (Or.inr (by omega))
  · intro hb
    have := b2 hb
    omega
  · omega

theorem sysInv_stepDeliverAB {s : TwoPeerSys} (h : SysInv s) :
    SysInv (stepDeliverAB s) := by
  cases hab : s.ab with
  | nil =>
    simpa only [stepDeliverAB, hab] using h
  | cons msg rest =>
    cases msg with
    | request =>
      obtain ⟨hra, hrb, hqa, hqb, ⟨a1, a2, a3, a4, a5⟩, ⟨b1, b2, b3, b4, b5⟩⟩ := h
      rw [hab] at a1 a4 a5 b1 b2 b3
      have e1 : (Msg.request :: rest).count Msg.release = rest.count Msg.release := by
        simp [List.count_cons]
      have e2 : (Msg.request :: rest).count (Msg.grant s.b.myId)
          = rest.count (Msg.grant s.b.myId) := by
        simp [List.count_cons]
      rw [e1] at a1 a4 a5
      rw [e2] at b1 b2 b3
      cases hbs : s.b.state with
      | available =>
        have hAnh : ¬ s.a.state = MState.heldLocally := by
          intro hc
          have := (a1 (Or.inl hc)).1
          simp [Mutex.isHeldRemotely, hbs] at this
        have hga0 : s.ba.count (Msg.grant s.a.myId) = 0 := by
          by_contra hne
          have := (a1 (Or.inr (Nat.pos_of_ne_zero hne))).1
          simp [Mutex.isHeldRemotely, hbs] at this
        have habr0 : rest.count Msg.release = 0 := by
          by_contra hne
          have := a5 (Nat.pos_of_ne_zero hne)
          simp [Mutex.isHeldRemotely, hbs] at this
        simp only [stepDeliverAB, hab, Mutex.handleMsg, Mutex.handleRequest, hbs,
          msgsTo, if_pos rfl, if_true, SysInv, DirInv]
        refine ⟨hra, hrb, hqa, by simp, ?_, ?_⟩
        · refine ⟨?_, ?_, ?_, by omega, ?_⟩
          · intro _
            exact ⟨by simp [Mutex.isHeldRemotely], habr0⟩
          · intro hc
            exact absurd hc hAnh
          · simp [List.count_append, hga0, count_grant_singleton_grant]
          · intro _
            simp [Mutex.isHeldRemotely]
        · refine ⟨?_, ?_, ?_, ?_, ?_⟩
          · intro hc
            rcases hc with hc | hc
            · simp at hc
            · obtain ⟨ha, hbarel⟩ := b1 (Or.inr hc)
              exact ⟨ha, by simp [List.count_append, hbarel]⟩
          · intro hc
            simp at hc
          · exact b3
          · simpa [List.count_append] using b4
          · intro hc
            exact b5 (by simpa [List.count_append] using hc)
      | requesting g =>
        have hAnh : ¬ s.a.state = MState.heldLocally := by
          intro hc
          have := (a1 (Or.inl hc)).1
          simp [Mutex.isHeldRemotely, hbs] at this
        have hga0 : s.ba.count (Msg.grant s.a.myId) = 0 := by
          by_contra hne
          have := (a1 (Or.inr (Nat.pos_of_ne_zero hne))).1
          simp [Mutex.isHeldRemotely, hbs] at this
        have habr0 : rest.count Msg.release = 0 := by
          by_contra hne
          have := a5 (Nat.pos_of_ne_zero hne)
          simp [Mutex.isHeldRemotely, hbs] at this
        by_cases hlt : idLt s.a.myId s.b.myId
        · simp only [stepDeliverAB, hab, Mutex.handleMsg, Mutex.handleRequest, hbs,
            if_pos hlt, msgsTo, if_pos rfl, if_true, SysInv, DirInv]
          refine ⟨hra, hrb, hqa, by simp, ?_, ?_⟩
          · refine ⟨?_, ?_, ?_, by omega, ?_⟩
            · intro _
              exact ⟨by simp [Mutex.isHeldRemotely], habr0⟩
            · intro hc
              exact absurd hc hAnh
            · simp [List.count_append, hga0, count_grant_singleton_grant]
            · intro _
              simp [Mutex.isHeldRemotely]
          · refine ⟨?_, ?_, ?_, ?_, ?_⟩
            · intro hc
              rcases hc with hc | hc
              · simp at hc
              · obtain ⟨ha, hbarel⟩ := b1 (Or.inr hc)
                exact ⟨ha, by simp [List.count_append, hbarel]⟩
            · intro hc
              simp at hc
            · exact b3
            · simpa [List.count_append] using b4
            · intro hc
              exact b5 (by simpa [List.count_append] using hc)
        · simp only [stepDeliverAB, hab, Mutex.handleMsg, Mutex.handleRequest, hbs,
            if_neg hlt, msgsTo, if_pos rfl, if_true, SysInv, DirInv]
          refine ⟨hra, hrb, hqa, ?_, ?_, ?_⟩
          · intro g1 hg1
            have hg := hqb g hbs
            injection hg1 with h2
            omega
          · refine ⟨?_, ?_, ?_, by omega, ?_⟩
            · intro hc
              rcases hc with hc | hc
              · exact absurd hc hAnh
              · have hc' : 0 < s.ba.count (Msg.grant s.a.myId) := by
                  simpa [List.count_append] using hc
                exact absurd hc' (by omega)
            · intro hc
              exact absurd hc hAnh
            · simp [List.count_append, hga0, count_grant_singleton_deny]
            · intro hc
              exact absurd hc (by omega)
          · refine ⟨?_, ?_, ?_, ?_, ?_⟩
            · intro hc
              rcases hc with hc | hc
              · simp at hc
              · obtain ⟨ha, hbarel⟩ := b1 (Or.inr hc)
                exact ⟨ha, by simp [List.count_append, hbarel]⟩
            · intro hc
              simp at hc
            · exact b3
            · simpa [List.count_append] using b4
            · intro hc
              exact b5 (by simpa [List.count_append] using hc)
      | heldLocally =>
        have hAnh : ¬ s.a.state = MState.heldLocally := by
          intro hc
          have := (a1 (Or.inl hc)).1
          simp [Mutex.isHeldRemotely, hbs] at this
        have hga0 : s.ba.count (Msg.grant s.a.myId) = 0 := by
          by_contra hne
          have := (a1 (Or.inr (Nat.pos_of_ne_zero hne))).1
          simp [Mutex.isHeldRemotely, hbs] at this
        have habr0 : rest.count Msg.release = 0 := by
          by_contra hne
          have := a5 (Nat.pos_of_ne_zero hne)
          simp [Mutex.isHeldRemotely, hbs] at this
        simp only [stepDeliverAB, hab, Mutex.handleMsg, Mutex.handleRequest, hbs,
          msgsTo, if_pos rfl, if_true, SysInv, DirInv]
        refine ⟨hra, hrb, hqa, by simp, ?_, ?_⟩
        · refine ⟨?_, ?_, ?_, by omega, ?_⟩
          · intro hc
            rcases hc with hc | hc
            · exact absurd hc hAnh
            · have hc' : 0 < s.ba.count (Msg.grant s.a.myId) := by
                simpa [List.count_append] using hc
              exact absurd hc' (by omega)
          · intro hc
            exact absurd hc hAnh
          · simp [List.count_append, hga0, count_grant_singleton_deny]
          · intro hc
            exact absurd hc (by omega)
        · refine ⟨?_, ?_, ?_, ?_, ?_⟩
          · intro hc
            obtain ⟨ha, hbarel⟩ := b1 (Or.inl hbs)
            exact ⟨ha, by simp [List.count_append, hbarel]⟩
          · intro _
            exact b2 hbs
          · exact b3
          · simpa [List.count_append] using b4
          · intro hc
            exact b5 (by simpa [List.count_append] using hc)
      | heldRemotely hld =>
        simp only [stepDeliverAB, hab, Mutex.handleMsg, Mutex.handleRequest, hbs,
          msgsTo, if_pos rfl, if_true, SysInv, DirInv]
        refine ⟨hra, hrb, hqa, by simp, ?_, ?_⟩
        · refine ⟨?_, ?_, ?_, ?_, ?_⟩
          · intro hc
            rcases hc with hc | hc
            · obtain ⟨hbr, habrel⟩ := a1 (Or.inl hc)
              exact ⟨hbr, habrel⟩
            · have hc' : 0 < s.ba.count (Msg.grant s.a.myId) := by
                simpa [List.count_append] using hc
              obtain ⟨hbr, habrel⟩ := a1 (Or.inr hc')
              exact ⟨hbr, habrel⟩
          · intro hc
            have := a2 hc
            simp [List.count_append, this, count_grant_singleton_deny]
          · simpa [List.count_append, count_grant_singleton_deny] using a3
          · omega
          · intro hc
            exact a5 hc
        · refine ⟨?_, ?_, ?_, ?_, ?_⟩
          · intro hc
            rcases hc with hc | hc
            · simp at hc
            · obtain ⟨ha, hbarel⟩ := b1 (Or.inr hc)
              exact ⟨ha, by simp [List.count_append, hbarel]⟩
          · intro hc
            simp at hc
          · exact b3
          · simpa [List.count_append] using b4
          · intro hc
            exact b5 (by simpa [List.count_append] using hc)
    | release =>
      cases hbs : s.b.state with
      | heldRemotely hld =>
        obtain ⟨hra, hrb, hqa, hqb, ⟨a1, a2, a3, a4, a5⟩, ⟨b1, b2, b3, b4, b5⟩⟩ := h
        rw [hab] at a1 a4 a5 b1 b2 b3
        have e1 : (Msg.release :: rest).count Msg.release
            = rest.count Msg.release + 1 := by
          simp [List.count_cons]
        have e2 : (Msg.release :: rest).count (Msg.grant s.b.myId)
            = rest.count (Msg.grant s.b.myId) := by
          simp [List.count_cons]
        rw [e1] at a1 a4 a5
        rw [e2] at b1 b2 b3
        have hAnh : ¬ s.a.state = MState.heldLocally := by
          intro hc
          have := (a1 (Or.inl hc)).2
          omega
        have hga0 : s.ba.count (Msg.grant s.a.myId) = 0 := by
          by_contra hne
          have := (a1 (Or.inr (Nat.pos_of_ne_zero hne))).2
          omega
        have habr0 : rest.count Msg.release = 0 := by omega
        simp only [stepDeliverAB, hab, Mutex.handleMsg, Mutex.handleRelease, hbs,
          msgsTo, List.append_nil, SysInv, DirInv]
        refine ⟨hra, hrb, hqa, by simp, ?_, ?_⟩
        · refine ⟨?_, ?_, a3, by omega, ?_⟩
          · intro hc
            rcases hc with hc | hc
            · exact absurd hc hAnh
            · exact absurd hc (by omega)
          · intro hc
            exact absurd hc hAnh
          · intro hc
            exact absurd hc (by omega)
        · refine ⟨?_, ?_, b3, b4, b5⟩
          · intro hc
            rcases hc with hc | hc
            · simp at hc
            · exact b1 (Or.inr hc)
          · intro hc
            simp at hc
      | available =>
        simp only [stepDeliverAB, hab, Mutex.handleMsg, Mutex.handleRelease, hbs,
          msgsTo, List.append_nil]
        exact sysInv_tail hab h
      | requesting g =>
        simp only [stepDeliverAB, hab, Mutex.handleMsg, Mutex.handleRelease, hbs,
          msgsTo, List.append_nil]
        exact sysInv_tail hab h
      | heldLocally =>
        simp only [stepDeliverAB, hab, Mutex.handleMsg, Mutex.handleRelease, hbs,
          msgsTo, List.append_nil]
        exact sysInv_tail hab h
    | grant p =>
      by_cases hp : p = s.b.myId
      · subst hp
        cases hbs : s.b.state with
        | requesting g =>
          obtain ⟨hra, hrb, hqa, hqb, ⟨a1, a2, a3, a4, a5⟩, ⟨b1, b2, b3, b4, b5⟩⟩ := h
          obtain ⟨flb, hpb⟩ := peers_of_map_id hrb
          rw [hab] at a1 a4 a5 b1 b2 b3
          have e1 : (Msg.grant s.b.myId :: rest).count Msg.release
              = rest.count Msg.release := by
            simp [List.count_cons]
          have e2 : (Msg.grant s.b.myId :: rest).count (Msg.grant s.b.myId)
              = rest.count (Msg.grant s.b.myId) + 1 := by
            simp [List.count_cons]
          rw [e1] at a1 a4 a5
          rw [e2] at b1 b2 b3
          obtain ⟨haRem, hbarel0⟩ := b1 (Or.inr (by omega))
          have hAnh : ¬ s.a.state = MState.heldLocally := by
            intro hc
            have := (a1 (Or.inl hc)).1
            simp [Mutex.isHeldRemotely, hbs] at this
          have hga0 : s.ba.count (Msg.grant s.a.myId) = 0 := by
            by_contra hne
            have := (a1 (Or.inr (Nat.pos_of_ne_zero hne))).1
            simp [Mutex.isHeldRemotely, hbs] at this
          have habr0 : rest.count Msg.release = 0 := by
            by_contra hne
            have := a5 (Nat.pos_of_ne_zero hne)
            simp [Mutex.isHeldRemotely, hbs] at this
          rcases hqb g hbs with rfl
          have hstep : s.b.handleMsg s.a.myId (Msg.grant s.b.myId)
              = ⟨⟨s.b.myId, [⟨s.a.myId, true⟩], MState.heldLocally⟩,
                 [], [Event.granted]⟩ := by
            simp [Mutex.handleMsg, Mutex.handleGrant, hbs, hpb]
          simp only [stepDeliverAB, hab, hstep, msgsTo, List.append_nil,
            SysInv, DirInv]
          refine ⟨hra, by simp, hqa, by simp, ?_, ?_⟩
          · refine ⟨?_, ?_, a3, by omega, ?_⟩
            · intro hc
              rcases hc with hc | hc
              · exact absurd hc hAnh
              · exact absurd hc (by omega)
            · intro hc
              exact absurd hc hAnh
            · intro hc
              exact absurd hc (by omega)
          · refine ⟨?_, ?_, by omega, b4, b5⟩
            · intro _
              exact ⟨haRem, hbarel0⟩
            · intro _
              omega
        | available =>
          simp only [stepDeliverAB, hab, Mutex.handleMsg, Mutex.handleGrant,
            if_pos rfl, hbs, msgsTo, List.append_nil]
          exact sysInv_tail hab h
        | heldLocally =>
          simp only [stepDeliverAB, hab, Mutex.handleMsg, Mutex.handleGrant,
            if_pos rfl, hbs, msgsTo, List.append_nil]
          exact sysInv_tail hab h
        | heldRemotely hld =>
          simp only [stepDeliverAB, hab, Mutex.handleMsg, Mutex.handleGrant,
            if_pos rfl, hbs, msgsTo, List.append_nil]
          exact sysInv_tail hab h
      · simp only [stepDeliverAB, hab, Mutex.handleMsg, Mutex.handleGrant,
          if_neg hp, msgsTo, List.append_nil]
        exact sysInv_tail hab h
    | deny p =>
      by_cases hp : p = s.b.myId
      · subst hp
        cases hbs : s.b.state with
        | requesting g =>
          obtain ⟨hra, hrb, hqa, hqb, ⟨a1, a2, a3, a4, a5⟩, ⟨b1, b2, b3, b4, b5⟩⟩ := h
          rw [hab] at a1 a4 a5 b1 b2 b3
          have e1 : (Msg.deny s.b.myId :: rest).count Msg.release
              = rest.count Msg.release := by
            simp [List.count_cons]
          have e2 : (Msg.deny s.b.myId :: rest).count (Msg.grant s.b.myId)
              = rest.count (Msg.grant s.b.myId) := by
            simp [List.count_cons]
          rw [e1] at a1 a4 a5
          rw [e2] at b1 b2 b3
          have hAnh : ¬ s.a.state = MState.heldLocally := by
            intro hc
            have := (a1 (Or.inl hc)).1
            simp [Mutex.isHeldRemotely, hbs] at this
          have hga0 : s.ba.count (Msg.grant s.a.myId) = 0 := by
            by_contra hne
            have := (a1 (Or.inr (Nat.pos_of_ne_zero hne))).1
            simp [Mutex.isHeldRemotely, hbs] at this
          have habr0 : rest.count Msg.release = 0 := by
            by_contra hne
            have := a5 (Nat.pos_of_ne_zero hne)
            simp [Mutex.isHeldRemotely, hbs] at this
          simp only [stepDeliverAB, hab, Mutex.handleMsg, Mutex.handleDeny,
            if_pos rfl, hbs, msgsTo, List.append_nil, SysInv, DirInv]
          refine ⟨hra, hrb, hqa, by simp, ?_, ?_⟩
          · refine ⟨?_, ?_, a3, by omega, ?_⟩
            · intro hc
              rcases hc with hc | hc
              · exact absurd hc hAnh
              · exact absurd hc (by omega)
            · intro hc
              exact absurd hc hAnh
            · intro hc
              exact absurd hc (by omega)
          · refine ⟨?_, ?_, b3, b4, b5⟩
            · intro hc
              rcases hc with hc | hc
              · simp at hc
              · exact b1 (Or.inr hc)
            · intro hc
              simp at hc
        | available =>
          simp only [stepDeliverAB, hab, Mutex.handleMsg, Mutex.handleDeny,
            if_pos rfl, hbs, msgsTo, List.append_nil]
          exact sysInv_tail hab h
        | heldLocally =>
          simp only [stepDeliverAB, hab, Mutex.handleMsg, Mutex.handleDeny,
            if_pos rfl, hbs, msgsTo, List.append_nil]
          exact sysInv_tail hab h
        | heldRemotely hld =>
          simp only [stepDeliverAB, hab, Mutex.handleMsg, Mutex.handleDeny,
            if_pos rfl, hbs, msgsTo, List.append_nil]
          exact sysInv_tail hab h
      · simp only [stepDeliverAB, hab, Mutex.handleMsg, Mutex.handleDeny,
          if_neg hp, msgsTo, List.append_nil]
        exact sysInv_tail hab h

theorem sysInv_stepRequestB {s : TwoPeerSys} (h : SysInv s) :
    SysInv (stepRequestB s) :=
  sysInv_swap (sysInv_stepRequestA (sysInv_swap h))

theorem sysInv_stepReleaseB {s : TwoPeerSys} (h : SysInv s) :
    SysInv (stepReleaseB s) :=
  sysInv_swap (sysInv_stepReleaseA (sysInv_swap h))

theorem sysInv_stepDeliverBA {s : TwoPeerSys} (h : SysInv s) :
    SysInv (stepDeliverBA s) :=
  sysInv_swap (sysInv_stepDeliverAB (sysInv_swap h))

theorem sysInv_step {s s' : TwoPeerSys} (hstep : SysStep s s') (h : SysInv s) :
    SysInv s' := by
  cases hstep with
  | requestA => exact sysInv_stepRequestA h
  | requestB => exact sysInv_stepRequestB h
  | releaseA => exact sysInv_stepReleaseA h
  | releaseB => exact sysInv_stepReleaseB h
  | deliverAB => exact sysInv_stepDeliverAB h
  | deliverBA => exact sysInv_stepDeliverBA h

theorem sysInv_init (idA idB : Identity) : SysInv (initSys idA idB) := by
  refine ⟨by simp [initSys], by simp [initSys], ?_, ?_, ?_, ?_⟩ <;>
    simp [initSys, DirInv, Mutex.isHeldRemotely]

theorem sysInv_reachable {idA idB : Identity} {s : TwoPeerSys}
    (h : Reachable idA idB s) : SysInv s := by
  induction h with
  | refl => exact sysInv_init idA idB
  | tail _ hstep ih => exact sysInv_step hstep ih

theorem handleGrant_noop {m : Mutex} (hnr : ∀ g, ¬ m.state = MState.requesting g)
    (sender requester : Identity) :
    m.handleGrant sender requester = ⟨m, [], []⟩ := by
  by_cases hr : requester = m.myId
  · cases hm : m.state with
    | requesting g => exact absurd hm (hnr g)
    | available => simp [Mutex.handleGrant, hr, hm]
    | heldLocally => simp [Mutex.handleGrant, hr, hm]
    | heldRemotely hld => simp [Mutex.handleGrant, hr, hm]
  · simp [Mutex.handleGrant, hr]

/-- C1: for two peers registered with each other under one mutex name,
with reliable channels (no partition) and no peer loss, no state
reachable by the two-peer protocol has both peers HeldLocally. -/
theorem c1_mutual_exclusion (idA idB : Identity) (s : TwoPeerSys)
    (_hne : idA ≠ idB) (hreach : Reachable idA idB s) :
    ¬ (s.a.state = MState.heldLocally ∧ s.b.state = MState.heldLocally) := by
  intro hc
  obtain ⟨ha, hb⟩ := hc
  obtain ⟨-, -, -, -, ⟨a1, -, -, -, -⟩, -⟩ := sysInv_reachable hreach
  have := (a1 (Or.inl ha)).1
  simp [Mutex.isHeldRemotely, hb] at this

theorem c1_mutual_exclusion_witness :
    (⟨10, 1⟩ : Identity) ≠ ⟨20, 2⟩ ∧
    ¬ ((initSys ⟨10, 1⟩ ⟨20, 2⟩).a.state = MState.heldLocally ∧
       (initSys ⟨10, 1⟩ ⟨20, 2⟩).b.state = MState.heldLocally) :=
  ⟨by decide,
   c1_mutual_exclusion ⟨10, 1⟩ ⟨20, 2⟩ _ (by decide) Relation.ReflTransGen.refl⟩

/-- C2: the state is exactly one of the four variants, and the three
accessors are pattern matches over that single state: each is true in
exactly its own variant and all three are false while Requesting.
Quantified over every instance, so it holds after every public
operation and every handler step. -/
theorem c2_state_sum_type (m : Mutex) :
    (m.state = MState.available ∨ (∃ g, m.state = MState.requesting g) ∨
      m.state = MState.heldLocally ∨ (∃ hld, m.state = MState.heldRemotely hld)) ∧
    (m.isAvailable = true ↔ m.state = MState.available) ∧
    (m.isHeldLocally = true ↔ m.state = MState.heldLocally) ∧
    (m.isHeldRemotely = true ↔ ∃ hld, m.state = MState.heldRemotely hld) ∧
    (∀ g, m.state = MState.requesting g →
      m.isAvailable = false ∧ m.isHeldLocally = false ∧
      m.isHeldRemotely = false) := by
  cases hs : m.state <;>
    simp [Mutex.isAvailable, Mutex.isHeldLocally, Mutex.isHeldRemotely, hs]

theorem c2_state_sum_type_witness :
    mutexReqLo.isAvailable = false ∧ mutexReqLo.isHeldLocally = false ∧
    mutexReqLo.isHeldRemotely = false :=
  (c2_state_sum_type mutexReqLo).2.2.2.2 0 rfl

/-- C3: a Request handled while Requesting grants (Grant reply, move to
HeldRemotely with the requester as holder) exactly when the requester's
identity is lower under the address-then-port total order; otherwise it
replies Deny and leaves the state (including grantsReceived)
unchanged. -/
theorem c3_request_tiebreak (m : Mutex) (sender : Identity) (g : Nat)
    (hs : m.state = MState.requesting g) :
    (idLt sender m.myId →
      m.handleRequest sender
        = ⟨{ m with state := MState.heldRemotely sender },
           [(sender, Msg.grant sender)], []⟩) ∧
    (¬ idLt sender m.myId →
      m.handleRequest sender = ⟨m, [(sender, Msg.deny sender)], []⟩) ∧
    (idLt sender m.myId ↔
      (sender.address < m.myId.address ∨
        (sender.address = m.myId.address ∧ sender.port < m.myId.port))) := by
  refine ⟨?_, ?_, Iff.rfl⟩
  · intro hlt
    simp [Mutex.handleRequest, hs, hlt]
  · intro hlt
    simp [Mutex.handleRequest, hs, hlt]

theorem c3_request_tiebreak_witness :
    mutexReqHi.handleRequest idLo
      = ⟨⟨idHi, [⟨idLo, false⟩], MState.heldRemotely idLo⟩,
         [(idLo, Msg.grant idLo)], []⟩ :=
  (c3_request_tiebreak mutexReqHi idLo 0 rfl).1 (by decide)

/-- C4: with both peers Requesting and each one's Request at the head
of the channel to the other, the higher-identity peer grants (moving to
HeldRemotely with the lower identity as holder, sending Grant) and the
lower-identity peer denies (staying Requesting, sending Deny); and the
two delivery orders commute, so the outcome is delivery-order
independent. -/
theorem c4_tiebreak_deterministic (s : TwoPeerSys) (ga gb : Nat)
    (ab' ba' : List Msg)
    (hA : s.a.state = MState.requesting ga) (hB : s.b.state = MState.requesting gb)
    (hlt : idLt s.a.myId s.b.myId)
    (hab : s.ab = Msg.request :: ab') (hba : s.ba = Msg.request :: ba') :
    ((stepDeliverAB s).b.state = MState.heldRemotely s.a.myId ∧
     (stepDeliverAB s).ba = s.ba ++ [Msg.grant s.a.myId] ∧
     (stepDeliverBA s).a.state = MState.requesting ga ∧
     (stepDeliverBA s).ab = s.ab ++ [Msg.deny s.b.myId]) ∧
    stepDeliverAB (stepDeliverBA s) = stepDeliverBA (stepDeliverAB s) := by
  have hnlt : ¬ idLt s.b.myId s.a.myId := idLt_asymm hlt
  refine ⟨⟨?_, ?_, ?_, ?_⟩, ?_⟩
  · simp [stepDeliverAB, hab, Mutex.handleMsg, Mutex.handleRequest, hB, hlt]
  · simp [stepDeliverAB, hab, Mutex.handleMsg, Mutex.handleRequest, hB, hlt,
      msgsTo, hba]
  · simp [stepDeliverBA, swapSys, stepDeliverAB, hba, Mutex.handleMsg,
      Mutex.handleRequest, hA, hnlt]
  · simp [stepDeliverBA, swapSys, stepDeliverAB, hba, Mutex.handleMsg,
      Mutex.handleRequest, hA, hnlt, msgsTo, hab]
  · simp [stepDeliverAB, stepDeliverBA, swapSys, hab, hba, Mutex.handleMsg,
      Mutex.handleRequest, hA, hB, hlt, hnlt, msgsTo]

theorem c4_tiebreak_deterministic_witness :
    stepDeliverAB (stepDeliverBA sysCollide)
      = stepDeliverBA (stepDeliverAB sysCollide) :=
  (c4_tiebreak_deterministic sysCollide 0 0 [] [] rfl rfl (by decide) rfl rfl).2

/-- C5: a grant addressed to us while Requesting increments the counter
by one; on reaching numPeers the state becomes HeldLocally and the
granted callbacks fire, exactly once — in any non-Requesting state
(in particular once HeldLocally) a further grant is a complete no-op
and fires nothing. -/
theorem c5_grant_accounting (m : Mutex) (sender : Identity) (g : Nat)
    (hs : m.state = MState.requesting g) :
    ((g + 1 = m.numPeers →
        (m.handleGrant sender m.myId).mutex.state = MState.heldLocally ∧
        (m.handleGrant sender m.myId).events = [Event.granted]) ∧
     (¬ g + 1 = m.numPeers →
        (m.handleGrant sender m.myId).mutex.state = MState.requesting (g + 1) ∧
        (m.handleGrant sender m.myId).events = [])) ∧
    (∀ m' : Mutex, (∀ g', ¬ m'.state = MState.requesting g') →
      ∀ sender' requester' : Identity,
        m'.handleGrant sender' requester' = ⟨m', [], []⟩) := by
  refine ⟨⟨?_, ?_⟩, ?_⟩
  · intro hn
    rw [Mutex.numPeers] at hn
    simp [Mutex.handleGrant, hs, hn]
  · intro hn
    rw [Mutex.numPeers] at hn
    simp [Mutex.handleGrant, hs, hn]
  · intro m' hnr sender' requester'
    exact handleGrant_noop hnr sender' requester'

theorem c5_grant_accounting_witness :
    (mutexReqLo.handleGrant idHi mutexReqLo.myId).mutex.state
      = MState.heldLocally ∧
    (mutexReqLo.handleGrant idHi mutexReqLo.myId).events = [Event.granted] :=
  (c5_grant_accounting mutexReqLo idHi 0 rfl).1.1 (by decide)

/-- C6: a deny addressed to us while Requesting, whatever the grant
count, moves the state to Available and fires the denied callbacks; a
grant handled after that abort (state no longer Requesting) changes
nothing and fires no callback. -/
theorem c6_deny_aborts (m : Mutex) (g : Nat) (hs : m.state = MState.requesting g) :
    m.handleDeny m.myId
      = ⟨{ m with state := MState.available }, [], [Event.denied]⟩ ∧
    (∀ sender' requester' : Identity,
      Mutex.handleGrant { m with state := MState.available } sender' requester'
        = ⟨{ m with state := MState.available }, [], []⟩) := by
  refine ⟨by simp [Mutex.handleDeny, hs], ?_⟩
  intro sender' requester'
  refine handleGrant_noop ?_ sender' requester'
  intro g' hg'
  simp at hg'

theorem c6_deny_aborts_witness :
    mutexReqLo.handleDeny mutexReqLo.myId
      = ⟨⟨idLo, [⟨idHi, false⟩], MState.available⟩, [], [Event.denied]⟩ :=
  (c6_deny_aborts mutexReqLo 0 rfl).1

/-- C7: request() while Requesting, HeldLocally, or HeldRemotely fires
the denied callbacks synchronously, sends nothing, and leaves the
instance (state and grant counter included) unchanged. -/
theorem c7_reentrant_request_denied (m : Mutex)
    (hs : (∃ g, m.state = MState.requesting g) ∨ m.state = MState.heldLocally ∨
          ∃ hld, m.state = MState.heldRemotely hld) :
    m.request = ⟨m, [], [Event.denied]⟩ := by
  rcases hs with ⟨g, hs⟩ | hs | ⟨hld, hs⟩ <;> simp [Mutex.request, hs]

theorem c7_reentrant_request_denied_witness :
    mutexReqLo.request = ⟨mutexReqLo, [], [Event.denied]⟩ :=
  c7_reentrant_request_denied mutexReqLo (Or.inl ⟨0, rfl⟩)

/-- C8: release() while Available or Requesting (or HeldRemotely) is a
complete no-op — instance unchanged (state, counter, registry and
callback registrations all live in the instance), no message, no
callback; only while HeldLocally does it send release to every peer,
move to Available, and fire the released callbacks. -/
theorem c8_release_frame (m : Mutex) :
    ((m.state = MState.available ∨ ∃ g, m.state = MState.requesting g) →
        m.release = ⟨m, [], []⟩) ∧
    (∀ hld, m.state = MState.heldRemotely hld → m.release = ⟨m, [], []⟩) ∧
    (m.state = MState.heldLocally →
        m.release
          = ⟨{ m with state := MState.available },
             m.peers.map (fun p => (p.id, Msg.release)), [Event.released]⟩) := by
  refine ⟨?_, ?_, ?_⟩
  · rintro (hs | ⟨g, hs⟩) <;> simp [Mutex.release, hs]
  · intro hld hs
    simp [Mutex.release, hs]
  · intro hs
    simp [Mutex.release, hs]

theorem c8_release_frame_witness :
    mutexReqLo.release = ⟨mutexReqLo, [], []⟩ :=
  (c8_release_frame mutexReqLo).1 (Or.inr ⟨0, rfl⟩)

/-- C9: with an empty peer registry and state Available, request()
moves directly to HeldLocally, fires the granted callbacks, and sends
no message. -/
theorem c9_zero_peer_grant (m : Mutex) (hs : m.state = MState.available)
    (hp : m.numPeers = 0) :
    m.request = ⟨{ m with state := MState.heldLocally }, [], [Event.granted]⟩ := by
  rw [Mutex.numPeers] at hp
  simp [Mutex.request, hs, hp]

theorem c9_zero_peer_grant_witness :
    mutexAvail0.request
      = ⟨⟨idLo, [], MState.heldLocally⟩, [], [Event.granted]⟩ :=
  c9_zero_peer_grant mutexAvail0 rfl rfl

/-- C10: a Grant or Deny whose echoed requester identity differs from
our own identity is filtered out — the handler is a complete no-op
(state and grant counter unchanged, no callback). -/
theorem c10_reply_filter (m : Mutex) (sender requester : Identity)
    (hne : ¬ requester = m.myId) :
    m.handleGrant sender requester = ⟨m, [], []⟩ ∧
    m.handleDeny requester = ⟨m, [], []⟩ := by
  constructor <;> simp [Mutex.handleGrant, Mutex.handleDeny, hne]

theorem c10_reply_filter_witness :
    mutexReqLo.handleGrant idHi idHi = ⟨mutexReqLo, [], []⟩ ∧
    mutexReqLo.handleDeny idHi = ⟨mutexReqLo, [], []⟩ :=
  c10_reply_filter mutexReqLo idHi idHi (by decide)

end Vrpn
